import Mathlib

/-!
Verification of the initialization-and-drive protocol of `pets/sim.py`
(class `SimPETS`): domain allocation (`SetUpParametersAndDomains`),
state initialization (`SetUpVariables`) and the time-stepping loop
(`Run`), shallowly embedded as trace-producing functions.

Modelling conventions:
* The daetools calls `SetInitialGuess`, `SetInitialCondition`,
  `AssignValue` and `CreateArray` are opaque external effects; we embed
  each method as the ordered list of such calls it issues.
* The global numpy RNG is abstracted as a family of draws
  `rand1, rand2 : String → ℕ → ℕ → ℕ → ℚ` giving, for particle
  `(l, i, j)` and point `k`, the raw uniform sample consumed by
  `np.random.rand` for the first resp. second concentration field.
* The restart checkpoint `self.dataPrev` is a mapping from string keys
  to matrices (lists of rows).  Python `arr[0, -1]` and `arr[-1, i]`
  are totalized with default `0` (`lastCol`, `lastRow`); the claims
  about restart assume a well-formed checkpoint, where the defaults
  are never exercised.
* Real arithmetic is embedded in `ℚ`.
-/

namespace SimPETS

/-- System-level parameter dictionary `ndD_s`, restricted to the keys
`SetUpParametersAndDomains` and `SetUpVariables` read.  The Python keys
`"1varTypes"` and `"2varTypes"` cannot start with a digit in Lean and
are spelled `onevarTypes` / `twovarTypes`. -/
structure NdDs where
  prevDir : String
  trodes : List String
  Nvol : String → ℕ
  Npart : String → ℕ
  psd_num : String → ℕ → ℕ → ℚ
  onevarTypes : List String
  twovarTypes : List String
  cs0 : String → ℚ
  c0 : ℚ
  phi_cathode : ℚ

/-- Electrode-level parameter dictionary `ndD_e`: the only field read
by `SetUpVariables` is `ndD_e[l]["indvPart"][i, j]["type"]`. -/
structure NdDe where
  indvPartType : String → ℕ → ℕ → String

/-- Python `int()` truncation toward zero on a rational. -/
def pyInt (q : ℚ) : ℤ := Int.tdiv q.num (q.den : ℤ)

/-- The per-particle discretization size `Nij = ndD_s["psd_num"][l][i,j]`,
read as a natural number.  The source uses the raw value as a Python
`range` bound (which requires it to be integral); `int` truncation is
the identity there. -/
def nijOf (s : NdDs) (l : String) (i j : ℕ) : ℕ :=
  (pyInt (s.psd_num l i j)).toNat

/-- Keys of the model variables written by `SetUpVariables`. -/
inductive VarKey where
  | ffrac (l : String)
  | R_Vp (l : String)
  | phi_bulk (l : String)
  | cbar (l : String) (i j : ℕ)
  | c (l : String) (i j : ℕ)
  | c1bar (l : String) (i j : ℕ)
  | c2bar (l : String) (i j : ℕ)
  | c1 (l : String) (i j : ℕ)
  | c2 (l : String) (i j : ℕ)
  | c_lyte (l : String)
  | phi_lyte (l : String)
  | phi_applied
  | dummyVar
  deriving DecidableEq, Repr

/-- One daetools initialization call issued by `SetUpVariables`:
`guess k v` is `k.SetInitialGuess(v)`, `guessAt k i v` is
`k.SetInitialGuess(i, v)`, `cond k i v` is `k.SetInitialCondition(i, v)`
and `assign k v` is `k.AssignValue(v)`. -/
inductive Ev where
  | guess (k : VarKey) (v : ℚ)
  | guessAt (k : VarKey) (i : ℕ) (v : ℚ)
  | cond (k : VarKey) (i : ℕ) (v : ℚ)
  | assign (k : VarKey) (v : ℚ)
  deriving DecidableEq, Repr

/-- `epsrnd = 0.0001` from the source. -/
def epsrnd : ℚ := 1 / 10000

/-- `epsrnd*(np.random.rand(Nij) - 0.5)` applied to a list of raw
uniform draws. -/
def rawPert (rs : List ℚ) : List ℚ := rs.map fun r => epsrnd * (r - 1 / 2)

/-- `xs -= np.mean(xs)`: subtract the arithmetic mean pointwise. -/
def demean (xs : List ℚ) : List ℚ :=
  xs.map fun x => x - xs.sum / (xs.length : ℚ)

/-- The de-meaned random perturbation sequence built from raw draws
(`rnd1`/`rnd2` of the source after the `-=` lines). -/
def pertOf (rs : List ℚ) : List ℚ := demean (rawPert rs)

/-- The raw draws consumed for one field of particle `(l, i, j)`. -/
def drawsFor (rand : String → ℕ → ℕ → ℕ → ℚ) (s : NdDs)
    (l : String) (i j : ℕ) : List ℚ :=
  (List.range (nijOf s l i j)).map (rand l i j)

/-- Fresh-start initialization of one particle (the solid-type dispatch
of lines 74–90): a one-field particle gets `cbar` guess `cs0` and exact
conditions `cs0` at every point; a two-field particle gets the three
average guesses and conditions `cs0 + rnd[k]`; any other type is
silently skipped (the source `if/elif` has no `else`). -/
def freshSolidPart (s : NdDs) (e : NdDe)
    (rand1 rand2 : String → ℕ → ℕ → ℕ → ℚ) (l : String) (i j : ℕ) :
    List Ev :=
  let Nij := nijOf s l i j
  let cs0 := s.cs0 l
  let solidType := e.indvPartType l i j
  if solidType ∈ s.onevarTypes then
    Ev.guess (.cbar l i j) cs0 ::
      (List.range Nij).map fun k => Ev.cond (.c l i j) k cs0
  else if solidType ∈ s.twovarTypes then
    let rnd1 := pertOf (drawsFor rand1 s l i j)
    let rnd2 := pertOf (drawsFor rand2 s l i j)
    Ev.guess (.c1bar l i j) cs0 ::
    Ev.guess (.c2bar l i j) cs0 ::
    Ev.guess (.cbar l i j) cs0 ::
      ((List.range Nij).flatMap fun k =>
        [Ev.cond (.c1 l i j) k (cs0 + rnd1.getD k 0),
         Ev.cond (.c2 l i j) k (cs0 + rnd2.getD k 0)])
  else []

/-- The fresh-start branch of `SetUpVariables` (lines 53–102), as the
ordered list of daetools calls it issues. -/
def freshEvents (s : NdDs) (e : NdDe)
    (rand1 rand2 : String → ℕ → ℕ → ℕ → ℚ) : List Ev :=
  (s.trodes.flatMap fun l =>
    Ev.guess (.ffrac l) (s.cs0 l) ::
      ((List.range (s.Nvol l)).flatMap fun i =>
        Ev.guessAt (.R_Vp l) i 0 ::
        Ev.guessAt (.phi_bulk l) i (if l = "a" then 0 else s.phi_cathode) ::
          ((List.range (s.Npart l)).flatMap fun j =>
            freshSolidPart s e rand1 rand2 l i j)))
  ++ ((List.range (s.Nvol "s")).flatMap fun i =>
      [Ev.cond (.c_lyte "s") i s.c0,
       Ev.guessAt (.phi_lyte "s") i 0])
  ++ (s.trodes.flatMap fun l =>
      (List.range (s.Nvol l)).flatMap fun i =>
        [Ev.cond (.c_lyte l) i s.c0,
         Ev.guessAt (.phi_lyte l) i 0])
  ++ [Ev.guess .phi_applied 0]

/-- `arr[0, -1]`: last entry of the first row of a checkpoint matrix,
totalized with default `0`. -/
def lastCol (m : List (List ℚ)) : ℚ := (m.headD []).getLastD 0

/-- `arr[-1, i]`: entry `i` of the last row of a checkpoint matrix,
totalized with default `0`. -/
def lastRow (m : List (List ℚ)) (i : ℕ) : ℚ := (m.getLastD []).getD i 0

/-- The per-particle key stem
`"partTrode{l}vol{i}part{j}_"` of the checkpoint file. -/
def partStr (l : String) (i j : ℕ) : String :=
  "partTrode" ++ l ++ "vol" ++ toString i ++ "part" ++ toString j ++ "_"

/-- Restart initialization of one particle (lines 114–137). -/
def restartSolidPart (s : NdDs) (e : NdDe)
    (dPrev : String → List (List ℚ)) (l : String) (i j : ℕ) : List Ev :=
  let Nij := nijOf s l i j
  let solidType := e.indvPartType l i j
  let ps := partStr l i j
  if solidType ∈ s.onevarTypes then
    Ev.guess (.cbar l i j) (lastCol (dPrev (ps ++ "cbar"))) ::
      (List.range Nij).map fun k =>
        Ev.cond (.c l i j) k (lastRow (dPrev (ps ++ "c")) k)
  else if solidType ∈ s.twovarTypes then
    Ev.guess (.c1bar l i j) (lastCol (dPrev (ps ++ "c1bar"))) ::
    Ev.guess (.c2bar l i j) (lastCol (dPrev (ps ++ "c2bar"))) ::
    Ev.guess (.cbar l i j) (lastCol (dPrev (ps ++ "cbar"))) ::
      ((List.range Nij).flatMap fun k =>
        [Ev.cond (.c1 l i j) k (lastRow (dPrev (ps ++ "c1")) k),
         Ev.cond (.c2 l i j) k (lastRow (dPrev (ps ++ "c2")) k)])
  else []

/-- The restart branch of `SetUpVariables` (lines 104–151). -/
def restartEvents (s : NdDs) (e : NdDe)
    (dPrev : String → List (List ℚ)) : List Ev :=
  (s.trodes.flatMap fun l =>
    Ev.guess (.ffrac l) (lastCol (dPrev ("ffrac_" ++ l))) ::
      ((List.range (s.Nvol l)).flatMap fun i =>
        Ev.guessAt (.R_Vp l) i (lastRow (dPrev ("R_Vp_" ++ l)) i) ::
        Ev.guessAt (.phi_bulk l) i (lastRow (dPrev ("phi_bulk_" ++ l)) i) ::
          ((List.range (s.Npart l)).flatMap fun j =>
            restartSolidPart s e dPrev l i j)))
  ++ ((List.range (s.Nvol "s")).flatMap fun i =>
      [Ev.cond (.c_lyte "s") i (lastRow (dPrev "c_lyte_s") i),
       Ev.guessAt (.phi_lyte "s") i (lastRow (dPrev "phi_lyte_s") i)])
  ++ (s.trodes.flatMap fun l =>
      (List.range (s.Nvol l)).flatMap fun i =>
        [Ev.cond (.c_lyte l) i (lastRow (dPrev ("c_lyte_" ++ l)) i),
         Ev.guessAt (.phi_lyte l) i (lastRow (dPrev ("phi_lyte_" ++ l)) i)])
  ++ [Ev.guess .phi_applied (lastCol (dPrev "phi_applied"))]

/-- `SetUpVariables` (lines 48–152): branch on
`ndD_s["prevDir"] == "false"`, then `self.m.dummyVar.AssignValue(0)`. -/
def SetUpVariables (s : NdDs) (e : NdDe)
    (dPrev : String → List (List ℚ))
    (rand1 rand2 : String → ℕ → ℕ → ℕ → ℚ) : List Ev :=
  (if s.prevDir = "false" then freshEvents s e rand1 rand2
   else restartEvents s e dPrev)
  ++ [Ev.assign .dummyVar 0]

/-- Error taxonomy named by the specification.  None of these is ever
raised by the source `SetUpVariables`. -/
inductive SimError where
  | prematureInitialization
  | unknownSolidType
  | missingRestartData
  deriving DecidableEq, Repr

/-- `SetUpVariables` viewed as a fallible call, with the allocation
state of the domains passed in.  The source body performs no check of
the domain-allocation state and contains no `raise`, so the result is
always `ok` and independent of `domainsAllocated`. -/
def SetUpVariablesRun (s : NdDs) (e : NdDe)
    (dPrev : String → List (List ℚ))
    (rand1 rand2 : String → ℕ → ℕ → ℕ → ℚ)
    (domainsAllocated : Bool) : Except SimError (List Ev) :=
  Except.ok (SetUpVariables s e dPrev rand1 rand2)

/-- Keys of the daetools domains allocated by
`SetUpParametersAndDomains`. -/
inductive DomKey where
  | cellSep
  | cell (l : String)
  | part (l : String)
  | particle (l : String) (i j : ℕ)
  deriving DecidableEq, Repr

/-- `SetUpParametersAndDomains` (lines 35–46), as the ordered list of
`CreateArray` calls (domain key paired with requested size).  The
per-particle size is `int(ndD["psd_num"][l][i,j])`. -/
def SetUpParametersAndDomains (s : NdDs) : List (DomKey × ℤ) :=
  (if 1 ≤ s.Nvol "s" then [(DomKey.cellSep, (s.Nvol "s" : ℤ))] else [])
  ++ (s.trodes.flatMap fun l =>
      (DomKey.cell l, (s.Nvol l : ℤ)) ::
      (DomKey.part l, (s.Npart l : ℤ)) ::
        ((List.range (s.Nvol l)).flatMap fun i =>
          (List.range (s.Npart l)).map fun j =>
            (DomKey.particle l i j, pyInt (s.psd_num l i j))))

/-- The time-stepping loop of `Run` (lines 159–174).  The external
solver is abstracted as `solve : ℕ → ℚ → ℚ`, giving for the `n`-th
integration call and requested report time `t` the clock value the
call returns.  Each emitted pair `(t, r)` stands for one loop
iteration: one `IntegrateUntilTime` request for `t` returning `r`,
followed unconditionally by one `ReportData` and one `SetProgress`
call; the loop breaks after the pair whose `r < t`. -/
def RunSteps (solve : ℕ → ℚ → ℚ) : ℕ → List ℚ → List (ℚ × ℚ)
  | _, [] => []
  | n, t :: ts =>
    let r := solve n t
    if r < t then [(t, r)]
    else (t, r) :: RunSteps solve (n + 1) ts

/-- The trace the loop produces when every integration call reaches
its requested time: requested times paired with reached times, in
order. -/
def reachedPairs (solve : ℕ → ℚ → ℚ) (n : ℕ) (ts : List ℚ) :
    List (ℚ × ℚ) :=
  (List.enumFrom n ts).map fun p => (p.2, solve p.1 p.2)

/-- The variable a daetools call addresses. -/
def evKey : Ev → VarKey
  | .guess k _ => k
  | .guessAt k _ _ => k
  | .cond k _ _ => k
  | .assign k _ => k

/-- Whether a variable key belongs to the concentration state of
particle `(l, i, j)` (the variables written by the solid-type dispatch
for that particle). -/
def isPartKey (k : VarKey) (l : String) (i j : ℕ) : Bool :=
  match k with
  | .cbar a b c => a == l && b == i && c == j
  | .c a b c => a == l && b == i && c == j
  | .c1bar a b c => a == l && b == i && c == j
  | .c2bar a b c => a == l && b == i && c == j
  | .c1 a b c => a == l && b == i && c == j
  | .c2 a b c => a == l && b == i && c == j
  | _ => false

/-! Concrete instances used to instantiate the theorems: a cell with
one separator volume and one cathode volume holding two particles, the
first of a one-field type, the second of a two-field type. -/

/-- A small fresh-start configuration. -/
def cfg1 : NdDs where
  prevDir := "false"
  trodes := ["c"]
  Nvol := fun l => if l = "s" then 1 else if l = "c" then 1 else 0
  Npart := fun l => if l = "c" then 2 else 0
  psd_num := fun _ _ j => if j = 0 then 2 else 3
  onevarTypes := ["ACR"]
  twovarTypes := ["CHR2"]
  cs0 := fun _ => 1 / 2
  c0 := 1
  phi_cathode := 3

/-- `cfg1` with the restart directory set to the literal `"none"`. -/
def cfgNone : NdDs := { cfg1 with prevDir := "none" }

/-- `cfg1` with a restart directory, selecting restart mode. -/
def cfgRestart : NdDs := { cfg1 with prevDir := "sim_output" }

/-- Electrode metadata for `cfg1`: particle 0 one-field, particle 1
two-field. -/
def e1 : NdDe where
  indvPartType := fun _ _ j => if j = 0 then "ACR" else "CHR2"

/-- Electrode metadata whose solid type is in neither kind-set. -/
def eUnknown : NdDe where
  indvPartType := fun _ _ _ => "mystery"

/-- A concrete checkpoint: every key holds the matrix
`[[7, 8], [9, 10]]`, so `lastCol` reads `8` and `lastRow` reads the
row `[9, 10]`. -/
def d1 : String → List (List ℚ) := fun _ => [[7, 8], [9, 10]]

/-- Concrete raw uniform draws in `[0, 1)`. -/
def r0 : String → ℕ → ℕ → ℕ → ℚ := fun _ _ _ k => if k = 0 then 0 else mkRat 3 4

/-- A solver stub that always reaches the requested report time. -/
def solveExact : ℕ → ℚ → ℚ := fun _ t => t

/-- A solver stub that reaches the requested time on the first call
and halts at clock `0` on every later call. -/
def solveHalt2 : ℕ → ℚ → ℚ := fun n t => if n = 0 then t else 0

/-- A degenerate configuration with no electrodes and no separator
volume, whose restart-directory field is the literal `"none"`. -/
def cfgTiny : NdDs where
  prevDir := "none"
  trodes := []
  Nvol := fun _ => 0
  Npart := fun _ => 0
  psd_num := fun _ _ _ => 1
  onevarTypes := []
  twovarTypes := []
  cs0 := fun _ => 2
  c0 := 1
  phi_cathode := 3

/-! ## General lemmas about the loop trace -/

theorem reachedPairs_cons (solve : ℕ → ℚ → ℚ) (n : ℕ) (t : ℚ) (ts : List ℚ) :
    reachedPairs solve n (t :: ts)
      = (t, solve n t) :: reachedPairs solve (n + 1) ts := by
  simp [reachedPairs, List.enumFrom]

theorem reachedPairs_map_fst (solve : ℕ → ℚ → ℚ) :
    ∀ (ts : List ℚ) (n : ℕ), (reachedPairs solve n ts).map Prod.fst = ts
  | [], _ => rfl
  | t :: ts, n => by
    rw [reachedPairs_cons, List.map_cons, reachedPairs_map_fst solve ts (n + 1)]

theorem reachedPairs_length (solve : ℕ → ℚ → ℚ) (ts : List ℚ) (n : ℕ) :
    (reachedPairs solve n ts).length = ts.length := by
  simp [reachedPairs]

theorem runSteps_all_reached_aux (solve : ℕ → ℚ → ℚ)
    (h : ∀ n t, ¬ solve n t < t) :
    ∀ (ts : List ℚ) (n : ℕ), RunSteps solve n ts = reachedPairs solve n ts
  | [], _ => rfl
  | t :: ts, n => by
    rw [reachedPairs_cons]
    simp only [RunSteps]
    rw [if_neg (h n t), runSteps_all_reached_aux solve h ts (n + 1)]

theorem runSteps_early_aux (solve : ℕ → ℚ → ℚ) :
    ∀ (ts₁ : List ℚ) (n : ℕ) (t : ℚ) (ts₂ : List ℚ),
      (∀ k, k < ts₁.length → ¬ solve (n + k) (ts₁.getD k 0) < ts₁.getD k 0) →
      solve (n + ts₁.length) t < t →
      RunSteps solve n (ts₁ ++ t :: ts₂)
        = reachedPairs solve n ts₁ ++ [(t, solve (n + ts₁.length) t)]
  | [], n, t, ts₂, _, h2 => by
    simp only [List.length_nil, Nat.add_zero] at h2
    simp only [List.nil_append, RunSteps]
    rw [if_pos h2]
    rfl
  | a :: ts₁, n, t, ts₂, h1, h2 => by
    have ha : ¬ solve n a < a := by
      have h0 := h1 0 (by simp)
      simpa using h0
    have hlen : n + 1 + ts₁.length = n + (a :: ts₁).length := by
      simp [Nat.add_comm, Nat.add_assoc, Nat.add_left_comm]
    have hrec := runSteps_early_aux solve ts₁ (n + 1) t ts₂
      (fun k hk => by
        have := h1 (k + 1) (by simpa using Nat.succ_lt_succ hk)
        simpa [Nat.add_comm, Nat.add_assoc, Nat.add_left_comm] using this)
      (by rw [hlen]; exact h2)
    simp only [List.cons_append, RunSteps, List.append_eq]
    rw [if_neg ha, hrec, reachedPairs_cons, hlen]
    rfl

/-! ## Shape lemmas for the solid-type dispatch -/

theorem freshSolidPart_onevar (s : NdDs) (e : NdDe)
    (rand1 rand2 : String → ℕ → ℕ → ℕ → ℚ) (l : String) (i j : ℕ)
    (ht : e.indvPartType l i j ∈ s.onevarTypes) :
    freshSolidPart s e rand1 rand2 l i j
      = Ev.guess (.cbar l i j) (s.cs0 l) ::
          ((List.range (nijOf s l i j)).map fun k =>
            Ev.cond (.c l i j) k (s.cs0 l)) := by
  simp [freshSolidPart, ht]

theorem freshSolidPart_twovar (s : NdDs) (e : NdDe)
    (rand1 rand2 : String → ℕ → ℕ → ℕ → ℚ) (l : String) (i j : ℕ)
    (ht1 : e.indvPartType l i j ∉ s.onevarTypes)
    (ht2 : e.indvPartType l i j ∈ s.twovarTypes) :
    freshSolidPart s e rand1 rand2 l i j
      = Ev.guess (.c1bar l i j) (s.cs0 l) ::
        Ev.guess (.c2bar l i j) (s.cs0 l) ::
        Ev.guess (.cbar l i j) (s.cs0 l) ::
          ((List.range (nijOf s l i j)).flatMap fun k =>
            [Ev.cond (.c1 l i j) k
              (s.cs0 l + (pertOf (drawsFor rand1 s l i j)).getD k 0),
             Ev.cond (.c2 l i j) k
              (s.cs0 l + (pertOf (drawsFor rand2 s l i j)).getD k 0)]) := by
  simp [freshSolidPart, ht1, ht2]

theorem freshSolidPart_other (s : NdDs) (e : NdDe)
    (rand1 rand2 : String → ℕ → ℕ → ℕ → ℚ) (l : String) (i j : ℕ)
    (ht1 : e.indvPartType l i j ∉ s.onevarTypes)
    (ht2 : e.indvPartType l i j ∉ s.twovarTypes) :
    freshSolidPart s e rand1 rand2 l i j = [] := by
  simp [freshSolidPart, ht1, ht2]

theorem restartSolidPart_onevar (s : NdDs) (e : NdDe)
    (dPrev : String → List (List ℚ)) (l : String) (i j : ℕ)
    (ht : e.indvPartType l i j ∈ s.onevarTypes) :
    restartSolidPart s e dPrev l i j
      = Ev.guess (.cbar l i j) (lastCol (dPrev (partStr l i j ++ "cbar"))) ::
          ((List.range (nijOf s l i j)).map fun k =>
            Ev.cond (.c l i j) k
              (lastRow (dPrev (partStr l i j ++ "c")) k)) := by
  simp [restartSolidPart, ht]

theorem restartSolidPart_twovar (s : NdDs) (e : NdDe)
    (dPrev : String → List (List ℚ)) (l : String) (i j : ℕ)
    (ht1 : e.indvPartType l i j ∉ s.onevarTypes)
    (ht2 : e.indvPartType l i j ∈ s.twovarTypes) :
    restartSolidPart s e dPrev l i j
      = Ev.guess (.c1bar l i j) (lastCol (dPrev (partStr l i j ++ "c1bar"))) ::
        Ev.guess (.c2bar l i j) (lastCol (dPrev (partStr l i j ++ "c2bar"))) ::
        Ev.guess (.cbar l i j) (lastCol (dPrev (partStr l i j ++ "cbar"))) ::
          ((List.range (nijOf s l i j)).flatMap fun k =>
            [Ev.cond (.c1 l i j) k
              (lastRow (dPrev (partStr l i j ++ "c1")) k),
             Ev.cond (.c2 l i j) k
              (lastRow (dPrev (partStr l i j ++ "c2")) k)]) := by
  simp [restartSolidPart, ht1, ht2]

theorem restartSolidPart_other (s : NdDs) (e : NdDe)
    (dPrev : String → List (List ℚ)) (l : String) (i j : ℕ)
    (ht1 : e.indvPartType l i j ∉ s.onevarTypes)
    (ht2 : e.indvPartType l i j ∉ s.twovarTypes) :
    restartSolidPart s e dPrev l i j = [] := by
  simp [restartSolidPart, ht1, ht2]

/-! ## Membership helpers -/

theorem mem_freshEvents_of_mem_solidPart (s : NdDs) (e : NdDe)
    (rand1 rand2 : String → ℕ → ℕ → ℕ → ℚ) {l : String} {i j : ℕ} {ev : Ev}
    (hl : l ∈ s.trodes) (hi : i < s.Nvol l) (hj : j < s.Npart l)
    (h : ev ∈ freshSolidPart s e rand1 rand2 l i j) :
    ev ∈ freshEvents s e rand1 rand2 := by
  refine List.mem_append_left _
    (List.mem_append_left _ (List.mem_append_left _ ?_))
  refine List.mem_flatMap.mpr ⟨l, hl, List.mem_cons_of_mem _ ?_⟩
  refine List.mem_flatMap.mpr ⟨i, List.mem_range.mpr hi,
    List.mem_cons_of_mem _ (List.mem_cons_of_mem _ ?_)⟩
  exact List.mem_flatMap.mpr ⟨j, List.mem_range.mpr hj, h⟩

theorem mem_restartEvents_of_mem_solidPart (s : NdDs) (e : NdDe)
    (dPrev : String → List (List ℚ)) {l : String} {i j : ℕ} {ev : Ev}
    (hl : l ∈ s.trodes) (hi : i < s.Nvol l) (hj : j < s.Npart l)
    (h : ev ∈ restartSolidPart s e dPrev l i j) :
    ev ∈ restartEvents s e dPrev := by
  refine List.mem_append_left _
    (List.mem_append_left _ (List.mem_append_left _ ?_))
  refine List.mem_flatMap.mpr ⟨l, hl, List.mem_cons_of_mem _ ?_⟩
  refine List.mem_flatMap.mpr ⟨i, List.mem_range.mpr hi,
    List.mem_cons_of_mem _ (List.mem_cons_of_mem _ ?_)⟩
  exact List.mem_flatMap.mpr ⟨j, List.mem_range.mpr hj, h⟩

theorem mem_setUpVariables_of_fresh (s : NdDs) (e : NdDe)
    (dPrev : String → List (List ℚ))
    (rand1 rand2 : String → ℕ → ℕ → ℕ → ℚ) {ev : Ev}
    (hp : s.prevDir = "false") (h : ev ∈ freshEvents s e rand1 rand2) :
    ev ∈ SetUpVariables s e dPrev rand1 rand2 := by
  unfold SetUpVariables
  rw [if_pos hp]
  exact List.mem_append_left _ h

theorem mem_setUpVariables_of_restart (s : NdDs) (e : NdDe)
    (dPrev : String → List (List ℚ))
    (rand1 rand2 : String → ℕ → ℕ → ℕ → ℚ) {ev : Ev}
    (hp : s.prevDir ≠ "false") (h : ev ∈ restartEvents s e dPrev) :
    ev ∈ SetUpVariables s e dPrev rand1 rand2 := by
  unfold SetUpVariables
  rw [if_neg hp]
  exact List.mem_append_left _ h

/-! ## Claim theorems -/

/-- C10: for every configuration, in both fresh-start and restart
mode, the final call issued by `SetUpVariables` is
`dummyVar.AssignValue(0)`, after all other initial values and guesses
have been set. -/
theorem setUpVariables_final_dummyVar (s : NdDs) (e : NdDe)
    (dPrev : String → List (List ℚ))
    (rand1 rand2 : String → ℕ → ℕ → ℕ → ℚ) :
    (SetUpVariables s e dPrev rand1 rand2).getLast?
      = some (Ev.assign .dummyVar 0) := by
  unfold SetUpVariables
  exact List.getLast?_concat _

/-- C1 (amended): `SetUpVariables` uses exactly one of the two modes,
and fresh-start mode is selected if and only if the restart-directory
field equals the sentinel `"false"` (not `"none"`); otherwise restart
mode is used. -/
theorem setUpVariables_mode_selection (s : NdDs) (e : NdDe)
    (dPrev : String → List (List ℚ))
    (rand1 rand2 : String → ℕ → ℕ → ℕ → ℚ) :
    (s.prevDir = "false" →
      SetUpVariables s e dPrev rand1 rand2
        = freshEvents s e rand1 rand2 ++ [Ev.assign .dummyVar 0]) ∧
    (s.prevDir ≠ "false" →
      SetUpVariables s e dPrev rand1 rand2
        = restartEvents s e dPrev ++ [Ev.assign .dummyVar 0]) := by
  constructor <;> intro h <;> simp [SetUpVariables, h]

/-- Witness for C1 (amended): `cfg1` (`prevDir = "false"`) initializes
in fresh-start mode, `cfgRestart` (`prevDir = "sim_output"`) in
restart mode. -/
theorem setUpVariables_mode_selection_witness :
    (SetUpVariables cfg1 e1 d1 r0 r0
        = freshEvents cfg1 e1 r0 r0 ++ [Ev.assign .dummyVar 0]) ∧
    (SetUpVariables cfgRestart e1 d1 r0 r0
        = restartEvents cfgRestart e1 d1 ++ [Ev.assign .dummyVar 0]) :=
  ⟨(setUpVariables_mode_selection cfg1 e1 d1 r0 r0).1 rfl,
   (setUpVariables_mode_selection cfgRestart e1 d1 r0 r0).2 (by decide)⟩

/-- Counterexample to C1 as stated: with the restart-directory field
set to the literal `"none"` the code selects restart mode, not
fresh-start mode (the sentinel compared against is `"false"`). -/
theorem setUpVariables_sentinel_not_none :
    ¬ ((SetUpVariables cfgTiny e1 d1 r0 r0
          = freshEvents cfgTiny e1 r0 r0 ++ [Ev.assign .dummyVar 0])
        ↔ cfgTiny.prevDir = "none") := by
  decide

/-- C9 (amended): `SetUpVariables` performs no domain-allocation
precondition check: invoked with domains not yet allocated it does not
fail (it issues exactly the same calls as with domains allocated), and
in particular never produces `PrematureInitializationError`. -/
theorem setUpVariablesRun_no_premature_guard (s : NdDs) (e : NdDe)
    (dPrev : String → List (List ℚ))
    (rand1 rand2 : String → ℕ → ℕ → ℕ → ℚ) :
    SetUpVariablesRun s e dPrev rand1 rand2 false
      = Except.ok (SetUpVariables s e dPrev rand1 rand2) ∧
    (∀ err : SimError,
      SetUpVariablesRun s e dPrev rand1 rand2 false ≠ Except.error err) ∧
    SetUpVariablesRun s e dPrev rand1 rand2 false
      = SetUpVariablesRun s e dPrev rand1 rand2 true := by
  refine ⟨rfl, ?_, rfl⟩
  intro err h
  simp [SetUpVariablesRun] at h

/-- Witness for C9 (amended) at `cfg1`: the premature call returns
the ordinary event list. -/
theorem setUpVariablesRun_no_premature_guard_witness :
    SetUpVariablesRun cfg1 e1 d1 r0 r0 false
      = Except.ok (SetUpVariables cfg1 e1 d1 r0 r0) :=
  (setUpVariablesRun_no_premature_guard cfg1 e1 d1 r0 r0).1

/-- Counterexample to C9 as stated: at the concrete configuration
`cfg1`, calling `SetUpVariables` with domains not allocated does not
fail with `PrematureInitializationError`. -/
theorem setUpVariables_premature_not_error :
    SetUpVariablesRun cfg1 e1 d1 r0 r0 false
      ≠ Except.error SimError.prematureInitialization := by
  simp [SetUpVariablesRun]

/-- C6: when every integration call reaches its requested report time,
the loop of `Run` performs exactly one step per report time, in order
(the trace pairs each requested time, in sequence, with its reached
time; one `ReportData` and one `SetProgress` call per pair), and
terminates after exhausting the sequence. -/
theorem run_all_reached (solve : ℕ → ℚ → ℚ) (ts : List ℚ)
    (h : ∀ n t, ¬ solve n t < t) :
    RunSteps solve 0 ts = reachedPairs solve 0 ts ∧
    (RunSteps solve 0 ts).map Prod.fst = ts ∧
    (RunSteps solve 0 ts).length = ts.length := by
  have he := runSteps_all_reached_aux solve h ts 0
  exact ⟨he, by rw [he, reachedPairs_map_fst],
    by rw [he, reachedPairs_length]⟩

/-- Witness for C6: report times `[1, 2, 3]` with a solver that always
reaches the requested time give exactly three recorded steps. -/
theorem run_all_reached_witness :
    RunSteps solveExact 0 [1, 2, 3] = [(1, 1), (2, 2), (3, 3)] ∧
    (RunSteps solveExact 0 [1, 2, 3]).length = 3 := by
  have h := run_all_reached solveExact [1, 2, 3] (fun _ t => lt_irrefl t)
  exact ⟨by rw [h.1]; rfl, by rw [h.2.2]; rfl⟩

/-- C5: if the integration call for report time `t` returns a clock
value strictly below `t` (after earlier calls all reached their
times), the loop records and reports that very step and then stops:
the trace ends with that step, its length is the number of completed
steps plus one, and the remaining report times are never attempted
(the trace does not depend on them).  The result is an ordinary trace,
not an error. -/
theorem run_early_halt (solve : ℕ → ℚ → ℚ) (ts₁ : List ℚ) (t : ℚ)
    (ts₂ : List ℚ)
    (h1 : ∀ k, k < ts₁.length → ¬ solve k (ts₁.getD k 0) < ts₁.getD k 0)
    (h2 : solve ts₁.length t < t) :
    RunSteps solve 0 (ts₁ ++ t :: ts₂)
      = reachedPairs solve 0 ts₁ ++ [(t, solve ts₁.length t)] ∧
    (RunSteps solve 0 (ts₁ ++ t :: ts₂)).length = ts₁.length + 1 ∧
    ∀ ts₂b : List ℚ,
      RunSteps solve 0 (ts₁ ++ t :: ts₂)
        = RunSteps solve 0 (ts₁ ++ t :: ts₂b) := by
  have key : ∀ ts : List ℚ,
      RunSteps solve 0 (ts₁ ++ t :: ts)
        = reachedPairs solve 0 ts₁ ++ [(t, solve ts₁.length t)] := by
    intro ts
    have := runSteps_early_aux solve ts₁ 0 t ts
      (fun k hk => by simpa using h1 k hk)
      (by simpa using h2)
    simpa using this
  refine ⟨key ts₂, ?_, fun ts₂b => by rw [key ts₂, key ts₂b]⟩
  rw [key ts₂]
  simp [reachedPairs_length]

/-- Witness for C5: report times `[1, 2, 3]` with a solver that
reaches `1` but halts at clock `0` when asked for `2`: exactly two
steps are recorded (the halted one included) and `3` is never
attempted. -/
theorem run_early_halt_witness :
    RunSteps solveHalt2 0 [1, 2, 3] = [(1, 1), (2, 0)] ∧
    (RunSteps solveHalt2 0 [1, 2, 3]).length = 2 := by
  have h := run_early_halt solveHalt2 [1] 2 [3]
    (by
      intro k hk
      have hk1 : k < 1 := by simpa using hk
      have hk0 : k = 0 := by omega
      subst hk0
      decide)
    (by decide)
  refine ⟨?_, ?_⟩
  · have he : RunSteps solveHalt2 0 [1, 2, 3]
        = reachedPairs solveHalt2 0 [1] ++ [(2, solveHalt2 [1].length 2)] :=
      h.1
    rw [he]; rfl
  · have hl : (RunSteps solveHalt2 0 [1, 2, 3]).length = [(1 : ℚ)].length + 1 :=
      h.2.1
    rw [hl]; rfl

/-- C8: `SetUpParametersAndDomains` allocates the separator index
space if and only if the separator volume count is at least `1` (and
then with that size); for each present region it allocates a volume
index space of size `Nvol[region]` and a particle index space of size
`Npart[region]`; and for each (region, volume, particle) triple it
allocates an internal index space whose size is the particle's
discretization count converted to an integer by truncation. -/
theorem setUpParametersAndDomains_spec (s : NdDs) (l : String) (i j : ℕ)
    (hl : l ∈ s.trodes) (hi : i < s.Nvol l) (hj : j < s.Npart l) :
    ((∃ z, (DomKey.cellSep, z) ∈ SetUpParametersAndDomains s)
        ↔ 1 ≤ s.Nvol "s") ∧
    (∀ z, (DomKey.cellSep, z) ∈ SetUpParametersAndDomains s
        → z = (s.Nvol "s" : ℤ)) ∧
    (DomKey.cell l, (s.Nvol l : ℤ)) ∈ SetUpParametersAndDomains s ∧
    (DomKey.part l, (s.Npart l : ℤ)) ∈ SetUpParametersAndDomains s ∧
    (DomKey.particle l i j, pyInt (s.psd_num l i j))
        ∈ SetUpParametersAndDomains s ∧
    (∀ lp ip jp z,
      (DomKey.particle lp ip jp, z) ∈ SetUpParametersAndDomains s
        → z = pyInt (s.psd_num lp ip jp)) := by
  refine ⟨⟨?_, ?_⟩, ?_, ?_, ?_, ?_, ?_⟩
  · rintro ⟨z, hz⟩
    simp [SetUpParametersAndDomains, List.mem_ite_nil_right] at hz
    exact hz.1
  · intro hc
    refine ⟨(s.Nvol "s" : ℤ), List.mem_append_left _ ?_⟩
    rw [if_pos hc]
    exact List.mem_singleton.mpr rfl
  · intro z hz
    simp [SetUpParametersAndDomains, List.mem_ite_nil_right] at hz
    exact hz.2
  · exact List.mem_append_right _
      (List.mem_flatMap.mpr ⟨l, hl, List.mem_cons_self _ _⟩)
  · exact List.mem_append_right _
      (List.mem_flatMap.mpr
        ⟨l, hl, List.mem_cons_of_mem _ (List.mem_cons_self _ _)⟩)
  · refine List.mem_append_right _ (List.mem_flatMap.mpr ⟨l, hl, ?_⟩)
    refine List.mem_cons_of_mem _ (List.mem_cons_of_mem _ ?_)
    exact List.mem_flatMap.mpr ⟨i, List.mem_range.mpr hi,
      List.mem_map.mpr ⟨j, List.mem_range.mpr hj, rfl⟩⟩
  · intro lp ip jp z hz
    simp [SetUpParametersAndDomains, List.mem_ite_nil_right] at hz
    obtain ⟨a, -, ib, -, jb, -, ⟨rfl, rfl, rfl⟩, hv⟩ := hz
    exact hv.symm

/-- Witness for C8 at `cfg1`: the cathode volume space has size `1`,
the separator is allocated with size `1`, and particle `(c, 0, 0)`
gets an internal space of size `int(2) = 2`. -/
theorem setUpParametersAndDomains_witness :
    (DomKey.cell "c", (1 : ℤ)) ∈ SetUpParametersAndDomains cfg1 ∧
    (DomKey.particle "c" 0 0, (2 : ℤ)) ∈ SetUpParametersAndDomains cfg1 ∧
    (DomKey.cellSep, (1 : ℤ)) ∈ SetUpParametersAndDomains cfg1 := by
  have h := setUpParametersAndDomains_spec cfg1 "c" 0 0
    (by decide) (by decide) (by decide)
  refine ⟨h.2.2.1, h.2.2.2.2.1, ?_⟩
  obtain ⟨z, hz⟩ := h.1.mpr (by decide)
  have hz1 : z = (1 : ℤ) := by
    rw [h.2.1 z hz]
    decide
  exact hz1 ▸ hz

/-- C2: in fresh-start mode, a particle whose solid type lies in the
single-field kind-set has its average-concentration guess set to the
configured `cs0` and each of its `Nij` per-point concentrations set as
an exact initial condition to that same `cs0`; moreover every
`SetInitialCondition` on that particle's `c` variable carries exactly
the value `cs0` (no random perturbation) and an index below `Nij`. -/
theorem fresh_onevar_exact_cs0 (s : NdDs) (e : NdDe)
    (dPrev : String → List (List ℚ))
    (rand1 rand2 : String → ℕ → ℕ → ℕ → ℚ) (l : String) (i j : ℕ)
    (hp : s.prevDir = "false")
    (hl : l ∈ s.trodes) (hi : i < s.Nvol l) (hj : j < s.Npart l)
    (ht : e.indvPartType l i j ∈ s.onevarTypes) :
    Ev.guess (.cbar l i j) (s.cs0 l) ∈ SetUpVariables s e dPrev rand1 rand2 ∧
    (∀ k, k < nijOf s l i j →
      Ev.cond (.c l i j) k (s.cs0 l) ∈ SetUpVariables s e dPrev rand1 rand2) ∧
    (∀ k v, Ev.cond (.c l i j) k v ∈ SetUpVariables s e dPrev rand1 rand2 →
      v = s.cs0 l ∧ k < nijOf s l i j) := by
  have hb : SetUpVariables s e dPrev rand1 rand2
      = freshEvents s e rand1 rand2 ++ [Ev.assign .dummyVar 0] := by
    unfold SetUpVariables
    rw [if_pos hp]
  refine ⟨?_, ?_, ?_⟩
  · refine mem_setUpVariables_of_fresh s e dPrev rand1 rand2 hp
      (mem_freshEvents_of_mem_solidPart s e rand1 rand2 hl hi hj ?_)
    rw [freshSolidPart_onevar s e rand1 rand2 l i j ht]
    exact List.mem_cons_self _ _
  · intro k hk
    refine mem_setUpVariables_of_fresh s e dPrev rand1 rand2 hp
      (mem_freshEvents_of_mem_solidPart s e rand1 rand2 hl hi hj ?_)
    rw [freshSolidPart_onevar s e rand1 rand2 l i j ht]
    exact List.mem_cons_of_mem _
      (List.mem_map.mpr ⟨k, List.mem_range.mpr hk, rfl⟩)
  · intro k v hmem
    rw [hb] at hmem
    rcases List.mem_append.mp hmem with hm | hm
    swap
    · simp at hm
    simp only [freshEvents, List.mem_append] at hm
    rcases hm with ((hm | hm) | hm) | hm
    · obtain ⟨a, ha, hm⟩ := List.mem_flatMap.mp hm
      rcases List.mem_cons.mp hm with heq | hm
      · simp at heq
      obtain ⟨ib, hib, hm⟩ := List.mem_flatMap.mp hm
      rcases List.mem_cons.mp hm with heq | hm
      · simp at heq
      rcases List.mem_cons.mp hm with heq | hm
      · simp at heq
      obtain ⟨jb, hjb, hm⟩ := List.mem_flatMap.mp hm
      by_cases h1 : e.indvPartType a ib jb ∈ s.onevarTypes
      · rw [freshSolidPart_onevar s e rand1 rand2 a ib jb h1] at hm
        simp at hm
        obtain ⟨k2, hk2, ⟨rfl, rfl, rfl⟩, rfl, rfl⟩ := hm
        exact ⟨rfl, hk2⟩
      · by_cases h2 : e.indvPartType a ib jb ∈ s.twovarTypes
        · rw [freshSolidPart_twovar s e rand1 rand2 a ib jb h1 h2] at hm
          simp at hm
        · rw [freshSolidPart_other s e rand1 rand2 a ib jb h1 h2] at hm
          simp at hm
    · simp at hm
    · simp at hm
    · simp at hm

/-- Witness for C2 at `cfg1`: particle `(c, 0, 0)` has type `"ACR"` in
the single-field kind-set, and gets `cbar` guess `cs0` and exact
conditions `cs0` at its points. -/
theorem fresh_onevar_exact_cs0_witness :
    Ev.guess (VarKey.cbar "c" 0 0) (cfg1.cs0 "c")
        ∈ SetUpVariables cfg1 e1 d1 r0 r0 ∧
    Ev.cond (VarKey.c "c" 0 0) 1 (cfg1.cs0 "c")
        ∈ SetUpVariables cfg1 e1 d1 r0 r0 := by
  have h := fresh_onevar_exact_cs0 cfg1 e1 d1 r0 r0 "c" 0 0
    rfl (by decide) (by decide) (by decide) (by decide)
  exact ⟨h.1, h.2.1 1 (by decide)⟩

/-! ## Numeric lemmas for the perturbation sequences -/

theorem sum_map_sub_const (xs : List ℚ) (c : ℚ) :
    (xs.map fun x => x - c).sum = xs.sum - xs.length * c := by
  induction xs with
  | nil => simp
  | cons a t ih =>
    simp only [List.map_cons, List.sum_cons, ih, List.length_cons]
    push_cast
    ring

theorem demean_sum (xs : List ℚ) : (demean xs).sum = 0 := by
  rcases eq_or_ne xs [] with rfl | hne
  · simp [demean]
  · have hlen : (xs.length : ℚ) ≠ 0 := by
      have := List.length_pos.mpr hne
      positivity
    unfold demean
    rw [sum_map_sub_const, mul_div_cancel₀ _ hlen, sub_self]

theorem rawPert_abs_le (rs : List ℚ) (h : ∀ r ∈ rs, 0 ≤ r ∧ r < 1) :
    ∀ x ∈ rawPert rs, |x| ≤ 1 / 20000 := by
  intro x hx
  obtain ⟨r, hr, rfl⟩ := List.mem_map.mp hx
  obtain ⟨h0, h1⟩ := h r hr
  rw [abs_le, epsrnd]
  constructor <;> linarith

/-- C3: in fresh-start mode, a particle in the two-field kind-set gets
two perturbation sequences (one per field, each of length `Nij`, built
from raw uniform draws): the raw sequences have magnitude at most
`0.00005 = 1/20000` pointwise, the sequences sum to exactly `0` after
de-meaning, and field 1 resp. field 2 receive, as exact initial
condition at each point `k`, the base `cs0` plus that field's
de-meaned perturbation at `k` — and nothing else. -/
theorem fresh_twovar_perturbation (s : NdDs) (e : NdDe)
    (dPrev : String → List (List ℚ))
    (rand1 rand2 : String → ℕ → ℕ → ℕ → ℚ) (l : String) (i j : ℕ)
    (hp : s.prevDir = "false")
    (hl : l ∈ s.trodes) (hi : i < s.Nvol l) (hj : j < s.Npart l)
    (ht1 : e.indvPartType l i j ∉ s.onevarTypes)
    (ht2 : e.indvPartType l i j ∈ s.twovarTypes)
    (hr1 : ∀ r ∈ drawsFor rand1 s l i j, 0 ≤ r ∧ r < 1)
    (hr2 : ∀ r ∈ drawsFor rand2 s l i j, 0 ≤ r ∧ r < 1) :
    (pertOf (drawsFor rand1 s l i j)).length = nijOf s l i j ∧
    (pertOf (drawsFor rand2 s l i j)).length = nijOf s l i j ∧
    (pertOf (drawsFor rand1 s l i j)).sum = 0 ∧
    (pertOf (drawsFor rand2 s l i j)).sum = 0 ∧
    (∀ x ∈ rawPert (drawsFor rand1 s l i j), |x| ≤ 1 / 20000) ∧
    (∀ x ∈ rawPert (drawsFor rand2 s l i j), |x| ≤ 1 / 20000) ∧
    (∀ k, k < nijOf s l i j →
      Ev.cond (.c1 l i j) k
          (s.cs0 l + (pertOf (drawsFor rand1 s l i j)).getD k 0)
        ∈ SetUpVariables s e dPrev rand1 rand2 ∧
      Ev.cond (.c2 l i j) k
          (s.cs0 l + (pertOf (drawsFor rand2 s l i j)).getD k 0)
        ∈ SetUpVariables s e dPrev rand1 rand2) ∧
    (∀ k v, Ev.cond (.c1 l i j) k v ∈ SetUpVariables s e dPrev rand1 rand2 →
      v = s.cs0 l + (pertOf (drawsFor rand1 s l i j)).getD k 0
        ∧ k < nijOf s l i j) ∧
    (∀ k v, Ev.cond (.c2 l i j) k v ∈ SetUpVariables s e dPrev rand1 rand2 →
      v = s.cs0 l + (pertOf (drawsFor rand2 s l i j)).getD k 0
        ∧ k < nijOf s l i j) := by
  have hb : SetUpVariables s e dPrev rand1 rand2
      = freshEvents s e rand1 rand2 ++ [Ev.assign .dummyVar 0] := by
    unfold SetUpVariables
    rw [if_pos hp]
  refine ⟨by simp [pertOf, demean, rawPert, drawsFor],
    by simp [pertOf, demean, rawPert, drawsFor],
    demean_sum _, demean_sum _,
    rawPert_abs_le _ hr1, rawPert_abs_le _ hr2, ?_, ?_, ?_⟩
  · intro k hk
    constructor
    all_goals
      refine mem_setUpVariables_of_fresh s e dPrev rand1 rand2 hp
        (mem_freshEvents_of_mem_solidPart s e rand1 rand2 hl hi hj ?_)
      rw [freshSolidPart_twovar s e rand1 rand2 l i j ht1 ht2]
      refine List.mem_cons_of_mem _ (List.mem_cons_of_mem _
        (List.mem_cons_of_mem _ ?_))
      exact List.mem_flatMap.mpr ⟨k, List.mem_range.mpr hk, by simp⟩
  · intro k v hmem
    rw [hb] at hmem
    rcases List.mem_append.mp hmem with hm | hm
    swap
    · simp at hm
    simp only [freshEvents, List.mem_append] at hm
    rcases hm with ((hm | hm) | hm) | hm
    · obtain ⟨a, ha, hm⟩ := List.mem_flatMap.mp hm
      rcases List.mem_cons.mp hm with heq | hm
      · simp at heq
      obtain ⟨ib, hib, hm⟩ := List.mem_flatMap.mp hm
      rcases List.mem_cons.mp hm with heq | hm
      · simp at heq
      rcases List.mem_cons.mp hm with heq | hm
      · simp at heq
      obtain ⟨jb, hjb, hm⟩ := List.mem_flatMap.mp hm
      by_cases h1 : e.indvPartType a ib jb ∈ s.onevarTypes
      · rw [freshSolidPart_onevar s e rand1 rand2 a ib jb h1] at hm
        simp at hm
      · by_cases h2 : e.indvPartType a ib jb ∈ s.twovarTypes
        · rw [freshSolidPart_twovar s e rand1 rand2 a ib jb h1 h2] at hm
          simp at hm
          obtain ⟨k2, hk2, ⟨rfl, rfl, rfl⟩, rfl, rfl⟩ := hm
          exact ⟨by simp [List.getD_eq_getElem?_getD], hk2⟩
        · rw [freshSolidPart_other s e rand1 rand2 a ib jb h1 h2] at hm
          simp at hm
    · simp at hm
    · simp at hm
    · simp at hm
  · intro k v hmem
    rw [hb] at hmem
    rcases List.mem_append.mp hmem with hm | hm
    swap
    · simp at hm
    simp only [freshEvents, List.mem_append] at hm
    rcases hm with ((hm | hm) | hm) | hm
    · obtain ⟨a, ha, hm⟩ := List.mem_flatMap.mp hm
      rcases List.mem_cons.mp hm with heq | hm
      · simp at heq
      obtain ⟨ib, hib, hm⟩ := List.mem_flatMap.mp hm
      rcases List.mem_cons.mp hm with heq | hm
      · simp at heq
      rcases List.mem_cons.mp hm with heq | hm
      · simp at heq
      obtain ⟨jb, hjb, hm⟩ := List.mem_flatMap.mp hm
      by_cases h1 : e.indvPartType a ib jb ∈ s.onevarTypes
      · rw [freshSolidPart_onevar s e rand1 rand2 a ib jb h1] at hm
        simp at hm
      · by_cases h2 : e.indvPartType a ib jb ∈ s.twovarTypes
        · rw [freshSolidPart_twovar s e rand1 rand2 a ib jb h1 h2] at hm
          simp at hm
          obtain ⟨k2, hk2, ⟨rfl, rfl, rfl⟩, rfl, rfl⟩ := hm
          exact ⟨by simp [List.getD_eq_getElem?_getD], hk2⟩
        · rw [freshSolidPart_other s e rand1 rand2 a ib jb h1 h2] at hm
          simp at hm
    · simp at hm
    · simp at hm
    · simp at hm

/-- Witness for C3 at `cfg1`: particle `(c, 0, 1)` has the two-field
type `"CHR2"`; its field-1 perturbation sums to zero, the raw
perturbations are bounded by `1/20000`, and point `0` of field 1 gets
`cs0` plus the de-meaned perturbation. -/
theorem fresh_twovar_perturbation_witness :
    (pertOf (drawsFor r0 cfg1 "c" 0 1)).sum = 0 ∧
    ((rawPert (drawsFor r0 cfg1 "c" 0 1)).all
        fun x => decide (|x| ≤ 1 / 20000)) = true ∧
    Ev.cond (VarKey.c1 "c" 0 1) 0
        (cfg1.cs0 "c" + (pertOf (drawsFor r0 cfg1 "c" 0 1)).getD 0 0)
      ∈ SetUpVariables cfg1 e1 d1 r0 r0 := by
  have h := fresh_twovar_perturbation cfg1 e1 d1 r0 r0 "c" 0 1
    rfl (by decide) (by decide) (by decide) (by decide) (by decide)
    (by decide) (by decide)
  refine ⟨h.2.2.1, ?_, (h.2.2.2.2.2.2.1 0 (by decide)).1⟩
  exact List.all_eq_true.mpr fun x hx =>
    decide_eq_true (h.2.2.2.2.1 x hx)

/-! ## Events addressing a given particle -/

theorem mem_freshSolidPart_partKey (s : NdDs) (e : NdDe)
    (rand1 rand2 : String → ℕ → ℕ → ℕ → ℚ) (a : String) (ib jb : ℕ)
    (ev : Ev) (h : ev ∈ freshSolidPart s e rand1 rand2 a ib jb)
    (l : String) (i j : ℕ) (hpk : isPartKey (evKey ev) l i j = true) :
    a = l ∧ ib = i ∧ jb = j ∧
      (e.indvPartType a ib jb ∈ s.onevarTypes ∨
        e.indvPartType a ib jb ∈ s.twovarTypes) := by
  by_cases h1 : e.indvPartType a ib jb ∈ s.onevarTypes
  · rw [freshSolidPart_onevar s e rand1 rand2 a ib jb h1] at h
    rcases List.mem_cons.mp h with rfl | h
    · simp only [evKey, isPartKey, Bool.and_eq_true, beq_iff_eq] at hpk
      exact ⟨hpk.1.1, hpk.1.2, hpk.2, Or.inl h1⟩
    · obtain ⟨k, -, rfl⟩ := List.mem_map.mp h
      simp only [evKey, isPartKey, Bool.and_eq_true, beq_iff_eq] at hpk
      exact ⟨hpk.1.1, hpk.1.2, hpk.2, Or.inl h1⟩
  · by_cases h2 : e.indvPartType a ib jb ∈ s.twovarTypes
    · rw [freshSolidPart_twovar s e rand1 rand2 a ib jb h1 h2] at h
      rcases List.mem_cons.mp h with rfl | h
      · simp only [evKey, isPartKey, Bool.and_eq_true, beq_iff_eq] at hpk
        exact ⟨hpk.1.1, hpk.1.2, hpk.2, Or.inr h2⟩
      rcases List.mem_cons.mp h with rfl | h
      · simp only [evKey, isPartKey, Bool.and_eq_true, beq_iff_eq] at hpk
        exact ⟨hpk.1.1, hpk.1.2, hpk.2, Or.inr h2⟩
      rcases List.mem_cons.mp h with rfl | h
      · simp only [evKey, isPartKey, Bool.and_eq_true, beq_iff_eq] at hpk
        exact ⟨hpk.1.1, hpk.1.2, hpk.2, Or.inr h2⟩
      obtain ⟨k, -, h⟩ := List.mem_flatMap.mp h
      rcases List.mem_cons.mp h with rfl | h
      · simp only [evKey, isPartKey, Bool.and_eq_true, beq_iff_eq] at hpk
        exact ⟨hpk.1.1, hpk.1.2, hpk.2, Or.inr h2⟩
      rcases List.mem_cons.mp h with rfl | h
      · simp only [evKey, isPartKey, Bool.and_eq_true, beq_iff_eq] at hpk
        exact ⟨hpk.1.1, hpk.1.2, hpk.2, Or.inr h2⟩
      · simp at h
    · rw [freshSolidPart_other s e rand1 rand2 a ib jb h1 h2] at h
      simp at h

theorem mem_restartSolidPart_partKey (s : NdDs) (e : NdDe)
    (dPrev : String → List (List ℚ)) (a : String) (ib jb : ℕ)
    (ev : Ev) (h : ev ∈ restartSolidPart s e dPrev a ib jb)
    (l : String) (i j : ℕ) (hpk : isPartKey (evKey ev) l i j = true) :
    a = l ∧ ib = i ∧ jb = j ∧
      (e.indvPartType a ib jb ∈ s.onevarTypes ∨
        e.indvPartType a ib jb ∈ s.twovarTypes) := by
  by_cases h1 : e.indvPartType a ib jb ∈ s.onevarTypes
  · rw [restartSolidPart_onevar s e dPrev a ib jb h1] at h
    rcases List.mem_cons.mp h with rfl | h
    · simp only [evKey, isPartKey, Bool.and_eq_true, beq_iff_eq] at hpk
      exact ⟨hpk.1.1, hpk.1.2, hpk.2, Or.inl h1⟩
    · obtain ⟨k, -, rfl⟩ := List.mem_map.mp h
      simp only [evKey, isPartKey, Bool.and_eq_true, beq_iff_eq] at hpk
      exact ⟨hpk.1.1, hpk.1.2, hpk.2, Or.inl h1⟩
  · by_cases h2 : e.indvPartType a ib jb ∈ s.twovarTypes
    · rw [restartSolidPart_twovar s e dPrev a ib jb h1 h2] at h
      rcases List.mem_cons.mp h with rfl | h
      · simp only [evKey, isPartKey, Bool.and_eq_true, beq_iff_eq] at hpk
        exact ⟨hpk.1.1, hpk.1.2, hpk.2, Or.inr h2⟩
      rcases List.mem_cons.mp h with rfl | h
      · simp only [evKey, isPartKey, Bool.and_eq_true, beq_iff_eq] at hpk
        exact ⟨hpk.1.1, hpk.1.2, hpk.2, Or.inr h2⟩
      rcases List.mem_cons.mp h with rfl | h
      · simp only [evKey, isPartKey, Bool.and_eq_true, beq_iff_eq] at hpk
        exact ⟨hpk.1.1, hpk.1.2, hpk.2, Or.inr h2⟩
      obtain ⟨k, -, h⟩ := List.mem_flatMap.mp h
      rcases List.mem_cons.mp h with rfl | h
      · simp only [evKey, isPartKey, Bool.and_eq_true, beq_iff_eq] at hpk
        exact ⟨hpk.1.1, hpk.1.2, hpk.2, Or.inr h2⟩
      rcases List.mem_cons.mp h with rfl | h
      · simp only [evKey, isPartKey, Bool.and_eq_true, beq_iff_eq] at hpk
        exact ⟨hpk.1.1, hpk.1.2, hpk.2, Or.inr h2⟩
      · simp at h
    · rw [restartSolidPart_other s e dPrev a ib jb h1 h2] at h
      simp at h

theorem mem_freshEvents_partKey (s : NdDs) (e : NdDe)
    (rand1 rand2 : String → ℕ → ℕ → ℕ → ℚ) (ev : Ev)
    (hev : ev ∈ freshEvents s e rand1 rand2)
    (l : String) (i j : ℕ) (hpk : isPartKey (evKey ev) l i j = true) :
    e.indvPartType l i j ∈ s.onevarTypes ∨
      e.indvPartType l i j ∈ s.twovarTypes := by
  simp only [freshEvents, List.mem_append] at hev
  rcases hev with ((hm | hm) | hm) | hm
  · obtain ⟨a, -, hm⟩ := List.mem_flatMap.mp hm
    rcases List.mem_cons.mp hm with rfl | hm
    · simp [evKey, isPartKey] at hpk
    obtain ⟨ib, -, hm⟩ := List.mem_flatMap.mp hm
    rcases List.mem_cons.mp hm with rfl | hm
    · simp [evKey, isPartKey] at hpk
    rcases List.mem_cons.mp hm with rfl | hm
    · simp [evKey, isPartKey] at hpk
    obtain ⟨jb, -, hm⟩ := List.mem_flatMap.mp hm
    obtain ⟨rfl, rfl, rfl, hty⟩ :=
      mem_freshSolidPart_partKey s e rand1 rand2 a ib jb ev hm l i j hpk
    exact hty
  · obtain ⟨ib, -, hm⟩ := List.mem_flatMap.mp hm
    rcases List.mem_cons.mp hm with rfl | hm
    · simp [evKey, isPartKey] at hpk
    rcases List.mem_cons.mp hm with rfl | hm
    · simp [evKey, isPartKey] at hpk
    · simp at hm
  · obtain ⟨a, -, hm⟩ := List.mem_flatMap.mp hm
    obtain ⟨ib, -, hm⟩ := List.mem_flatMap.mp hm
    rcases List.mem_cons.mp hm with rfl | hm
    · simp [evKey, isPartKey] at hpk
    rcases List.mem_cons.mp hm with rfl | hm
    · simp [evKey, isPartKey] at hpk
    · simp at hm
  · rcases List.mem_singleton.mp hm with rfl
    simp [evKey, isPartKey] at hpk

theorem mem_restartEvents_partKey (s : NdDs) (e : NdDe)
    (dPrev : String → List (List ℚ)) (ev : Ev)
    (hev : ev ∈ restartEvents s e dPrev)
    (l : String) (i j : ℕ) (hpk : isPartKey (evKey ev) l i j = true) :
    e.indvPartType l i j ∈ s.onevarTypes ∨
      e.indvPartType l i j ∈ s.twovarTypes := by
  simp only [restartEvents, List.mem_append] at hev
  rcases hev with ((hm | hm) | hm) | hm
  · obtain ⟨a, -, hm⟩ := List.mem_flatMap.mp hm
    rcases List.mem_cons.mp hm with rfl | hm
    · simp [evKey, isPartKey] at hpk
    obtain ⟨ib, -, hm⟩ := List.mem_flatMap.mp hm
    rcases List.mem_cons.mp hm with rfl | hm
    · simp [evKey, isPartKey] at hpk
    rcases List.mem_cons.mp hm with rfl | hm
    · simp [evKey, isPartKey] at hpk
    obtain ⟨jb, -, hm⟩ := List.mem_flatMap.mp hm
    obtain ⟨rfl, rfl, rfl, hty⟩ :=
      mem_restartSolidPart_partKey s e dPrev a ib jb ev hm l i j hpk
    exact hty
  · obtain ⟨ib, -, hm⟩ := List.mem_flatMap.mp hm
    rcases List.mem_cons.mp hm with rfl | hm
    · simp [evKey, isPartKey] at hpk
    rcases List.mem_cons.mp hm with rfl | hm
    · simp [evKey, isPartKey] at hpk
    · simp at hm
  · obtain ⟨a, -, hm⟩ := List.mem_flatMap.mp hm
    obtain ⟨ib, -, hm⟩ := List.mem_flatMap.mp hm
    rcases List.mem_cons.mp hm with rfl | hm
    · simp [evKey, isPartKey] at hpk
    rcases List.mem_cons.mp hm with rfl | hm
    · simp [evKey, isPartKey] at hpk
    · simp at hm
  · rcases List.mem_singleton.mp hm with rfl
    simp [evKey, isPartKey] at hpk

/-- C7 (amended): a particle whose solid-type tag lies in neither
kind-set is silently skipped by `SetUpVariables`, in both fresh-start
and restart mode: no error of any kind is raised (in particular no
`UnknownSolidTypeError`), and no initialization call addressing any of
that particle's concentration variables is issued. -/
theorem unknown_type_silently_skipped (s : NdDs) (e : NdDe)
    (dPrev : String → List (List ℚ))
    (rand1 rand2 : String → ℕ → ℕ → ℕ → ℚ) (l : String) (i j : ℕ)
    (ht1 : e.indvPartType l i j ∉ s.onevarTypes)
    (ht2 : e.indvPartType l i j ∉ s.twovarTypes) :
    (∀ b, SetUpVariablesRun s e dPrev rand1 rand2 b
        = Except.ok (SetUpVariables s e dPrev rand1 rand2)) ∧
    ∀ ev ∈ SetUpVariables s e dPrev rand1 rand2,
      isPartKey (evKey ev) l i j = false := by
  refine ⟨fun _ => rfl, ?_⟩
  intro ev hev
  by_contra hne
  have hpk : isPartKey (evKey ev) l i j = true := by
    revert hne
    cases isPartKey (evKey ev) l i j <;> simp
  unfold SetUpVariables at hev
  rcases List.mem_append.mp hev with hm | hm
  · by_cases hp : s.prevDir = "false"
    · rw [if_pos hp] at hm
      rcases mem_freshEvents_partKey s e rand1 rand2 ev hm l i j hpk with
        h | h
      · exact ht1 h
      · exact ht2 h
    · rw [if_neg hp] at hm
      rcases mem_restartEvents_partKey s e dPrev ev hm l i j hpk with h | h
      · exact ht1 h
      · exact ht2 h
  · rcases List.mem_singleton.mp hm with rfl
    simp [evKey, isPartKey] at hpk

/-- Witness for C7 (amended) at `cfg1` with the unknown type
`"mystery"`: initialization succeeds and particle `(c, 0, 0)` receives
no call. -/
theorem unknown_type_silently_skipped_witness :
    SetUpVariablesRun cfg1 eUnknown d1 r0 r0 true
        = Except.ok (SetUpVariables cfg1 eUnknown d1 r0 r0) ∧
    ((SetUpVariables cfg1 eUnknown d1 r0 r0).all
        fun ev => !(isPartKey (evKey ev) "c" 0 0)) = true := by
  have h := unknown_type_silently_skipped cfg1 eUnknown d1 r0 r0 "c" 0 0
    (by decide) (by decide)
  refine ⟨h.1 true, List.all_eq_true.mpr fun ev hev => ?_⟩
  have hk := h.2 ev hev
  simp [hk]

/-- Counterexample to C7 as stated: at `cfg1` with every solid type
unknown, state initialization does not fail with
`UnknownSolidTypeError` (it completes normally). -/
theorem unknown_type_not_error :
    SetUpVariablesRun cfg1 eUnknown d1 r0 r0 true
      ≠ Except.error SimError.unknownSolidType := by
  simp [SetUpVariablesRun]

/-- C4: in restart mode (restart-directory not the `"false"`
sentinel), every quantity `SetUpVariables` initializes is read from
the checkpoint's last time sample for the corresponding key — filling
fraction, per-volume reaction rate and bulk potential, per-particle
averages and per-point profiles (under the region/volume/particle
qualified key stem), separator and electrode electrolyte concentration
and potential, and applied potential — and the issued calls are
independent of the random draws (no perturbation is applied). -/
theorem restart_from_checkpoint (s : NdDs) (e : NdDe)
    (dPrev : String → List (List ℚ))
    (rand1 rand2 rand1b rand2b : String → ℕ → ℕ → ℕ → ℚ)
    (l : String) (i j : ℕ)
    (hp : s.prevDir ≠ "false")
    (hl : l ∈ s.trodes) (hi : i < s.Nvol l) (hj : j < s.Npart l) :
    SetUpVariables s e dPrev rand1 rand2
      = SetUpVariables s e dPrev rand1b rand2b ∧
    Ev.guess (.ffrac l) (lastCol (dPrev ("ffrac_" ++ l)))
        ∈ SetUpVariables s e dPrev rand1 rand2 ∧
    Ev.guessAt (.R_Vp l) i (lastRow (dPrev ("R_Vp_" ++ l)) i)
        ∈ SetUpVariables s e dPrev rand1 rand2 ∧
    Ev.guessAt (.phi_bulk l) i (lastRow (dPrev ("phi_bulk_" ++ l)) i)
        ∈ SetUpVariables s e dPrev rand1 rand2 ∧
    (e.indvPartType l i j ∈ s.onevarTypes →
      Ev.guess (.cbar l i j) (lastCol (dPrev (partStr l i j ++ "cbar")))
          ∈ SetUpVariables s e dPrev rand1 rand2 ∧
      ∀ k, k < nijOf s l i j →
        Ev.cond (.c l i j) k (lastRow (dPrev (partStr l i j ++ "c")) k)
          ∈ SetUpVariables s e dPrev rand1 rand2) ∧
    (e.indvPartType l i j ∉ s.onevarTypes →
      e.indvPartType l i j ∈ s.twovarTypes →
      Ev.guess (.c1bar l i j) (lastCol (dPrev (partStr l i j ++ "c1bar")))
          ∈ SetUpVariables s e dPrev rand1 rand2 ∧
      Ev.guess (.c2bar l i j) (lastCol (dPrev (partStr l i j ++ "c2bar")))
          ∈ SetUpVariables s e dPrev rand1 rand2 ∧
      Ev.guess (.cbar l i j) (lastCol (dPrev (partStr l i j ++ "cbar")))
          ∈ SetUpVariables s e dPrev rand1 rand2 ∧
      ∀ k, k < nijOf s l i j →
        Ev.cond (.c1 l i j) k (lastRow (dPrev (partStr l i j ++ "c1")) k)
            ∈ SetUpVariables s e dPrev rand1 rand2 ∧
        Ev.cond (.c2 l i j) k (lastRow (dPrev (partStr l i j ++ "c2")) k)
            ∈ SetUpVariables s e dPrev rand1 rand2) ∧
    (∀ i2, i2 < s.Nvol "s" →
      Ev.cond (.c_lyte "s") i2 (lastRow (dPrev "c_lyte_s") i2)
          ∈ SetUpVariables s e dPrev rand1 rand2 ∧
      Ev.guessAt (.phi_lyte "s") i2 (lastRow (dPrev "phi_lyte_s") i2)
          ∈ SetUpVariables s e dPrev rand1 rand2) ∧
    Ev.cond (.c_lyte l) i (lastRow (dPrev ("c_lyte_" ++ l)) i)
        ∈ SetUpVariables s e dPrev rand1 rand2 ∧
    Ev.guessAt (.phi_lyte l) i (lastRow (dPrev ("phi_lyte_" ++ l)) i)
        ∈ SetUpVariables s e dPrev rand1 rand2 ∧
    Ev.guess .phi_applied (lastCol (dPrev "phi_applied"))
        ∈ SetUpVariables s e dPrev rand1 rand2 := by
  have hA : ∀ {ev : Ev},
      ev ∈ (s.trodes.flatMap fun a =>
        Ev.guess (.ffrac a) (lastCol (dPrev ("ffrac_" ++ a))) ::
          ((List.range (s.Nvol a)).flatMap fun ib =>
            Ev.guessAt (.R_Vp a) ib (lastRow (dPrev ("R_Vp_" ++ a)) ib) ::
            Ev.guessAt (.phi_bulk a) ib
                (lastRow (dPrev ("phi_bulk_" ++ a)) ib) ::
              ((List.range (s.Npart a)).flatMap fun jb =>
                restartSolidPart s e dPrev a ib jb))) →
      ev ∈ restartEvents s e dPrev := fun h =>
    List.mem_append_left _ (List.mem_append_left _ (List.mem_append_left _ h))
  refine ⟨by unfold SetUpVariables; rw [if_neg hp, if_neg hp], ?_, ?_, ?_, ?_, ?_,
    ?_, ?_, ?_, ?_⟩
  · exact mem_setUpVariables_of_restart s e dPrev rand1 rand2 hp
      (hA (List.mem_flatMap.mpr ⟨l, hl, List.mem_cons_self _ _⟩))
  · refine mem_setUpVariables_of_restart s e dPrev rand1 rand2 hp
      (hA (List.mem_flatMap.mpr ⟨l, hl, List.mem_cons_of_mem _ ?_⟩))
    exact List.mem_flatMap.mpr
      ⟨i, List.mem_range.mpr hi, List.mem_cons_self _ _⟩
  · refine mem_setUpVariables_of_restart s e dPrev rand1 rand2 hp
      (hA (List.mem_flatMap.mpr ⟨l, hl, List.mem_cons_of_mem _ ?_⟩))
    exact List.mem_flatMap.mpr ⟨i, List.mem_range.mpr hi,
      List.mem_cons_of_mem _ (List.mem_cons_self _ _)⟩
  · intro ht
    constructor
    · refine mem_setUpVariables_of_restart s e dPrev rand1 rand2 hp
        (mem_restartEvents_of_mem_solidPart s e dPrev hl hi hj ?_)
      rw [restartSolidPart_onevar s e dPrev l i j ht]
      exact List.mem_cons_self _ _
    · intro k hk
      refine mem_setUpVariables_of_restart s e dPrev rand1 rand2 hp
        (mem_restartEvents_of_mem_solidPart s e dPrev hl hi hj ?_)
      rw [restartSolidPart_onevar s e dPrev l i j ht]
      exact List.mem_cons_of_mem _
        (List.mem_map.mpr ⟨k, List.mem_range.mpr hk, rfl⟩)
  · intro ht1 ht2
    refine ⟨?_, ?_, ?_, ?_⟩
    · refine mem_setUpVariables_of_restart s e dPrev rand1 rand2 hp
        (mem_restartEvents_of_mem_solidPart s e dPrev hl hi hj ?_)
      rw [restartSolidPart_twovar s e dPrev l i j ht1 ht2]
      exact List.mem_cons_self _ _
    · refine mem_setUpVariables_of_restart s e dPrev rand1 rand2 hp
        (mem_restartEvents_of_mem_solidPart s e dPrev hl hi hj ?_)
      rw [restartSolidPart_twovar s e dPrev l i j ht1 ht2]
      exact List.mem_cons_of_mem _ (List.mem_cons_self _ _)
    · refine mem_setUpVariables_of_restart s e dPrev rand1 rand2 hp
        (mem_restartEvents_of_mem_solidPart s e dPrev hl hi hj ?_)
      rw [restartSolidPart_twovar s e dPrev l i j ht1 ht2]
      exact List.mem_cons_of_mem _
        (List.mem_cons_of_mem _ (List.mem_cons_self _ _))
    · intro k hk
      constructor
      all_goals
        refine mem_setUpVariables_of_restart s e dPrev rand1 rand2 hp
          (mem_restartEvents_of_mem_solidPart s e dPrev hl hi hj ?_)
        rw [restartSolidPart_twovar s e dPrev l i j ht1 ht2]
        refine List.mem_cons_of_mem _ (List.mem_cons_of_mem _
          (List.mem_cons_of_mem _ ?_))
        exact List.mem_flatMap.mpr ⟨k, List.mem_range.mpr hk, by simp⟩
  · intro i2 hi2
    constructor
    all_goals
      refine mem_setUpVariables_of_restart s e dPrev rand1 rand2 hp
        (List.mem_append_left _ (List.mem_append_left _
          (List.mem_append_right _ ?_)))
      exact List.mem_flatMap.mpr ⟨i2, List.mem_range.mpr hi2, by simp⟩
  · refine mem_setUpVariables_of_restart s e dPrev rand1 rand2 hp
      (List.mem_append_left _ (List.mem_append_right _ ?_))
    refine List.mem_flatMap.mpr ⟨l, hl, ?_⟩
    exact List.mem_flatMap.mpr ⟨i, List.mem_range.mpr hi, by simp⟩
  · refine mem_setUpVariables_of_restart s e dPrev rand1 rand2 hp
      (List.mem_append_left _ (List.mem_append_right _ ?_))
    refine List.mem_flatMap.mpr ⟨l, hl, ?_⟩
    exact List.mem_flatMap.mpr ⟨i, List.mem_range.mpr hi, by simp⟩
  · exact mem_setUpVariables_of_restart s e dPrev rand1 rand2 hp
      (List.mem_append_right _ (List.mem_singleton.mpr rfl))

/-- Witness for C4 at `cfgRestart` with checkpoint `d1`: the filling
fraction guess reads `ffrac_c[0, -1] = 8`, the one-field particle
`(c, 0, 0)` reads its point conditions from
`partTrodecvol0part0_c[-1, k]`, and the result ignores the random
draws. -/
theorem restart_from_checkpoint_witness :
    SetUpVariables cfgRestart e1 d1 r0 r0
      = SetUpVariables cfgRestart e1 d1
          (fun _ _ _ _ => 0) (fun _ _ _ _ => 0) ∧
    Ev.guess (VarKey.ffrac "c") (lastCol (d1 ("ffrac_" ++ "c")))
        ∈ SetUpVariables cfgRestart e1 d1 r0 r0 ∧
    Ev.cond (VarKey.c "c" 0 0) 1
        (lastRow (d1 (partStr "c" 0 0 ++ "c")) 1)
      ∈ SetUpVariables cfgRestart e1 d1 r0 r0 ∧
    Ev.guess VarKey.phi_applied (lastCol (d1 "phi_applied"))
        ∈ SetUpVariables cfgRestart e1 d1 r0 r0 := by
  have h := restart_from_checkpoint cfgRestart e1 d1 r0 r0
    (fun _ _ _ _ => 0) (fun _ _ _ _ => 0) "c" 0 0
    (by decide) (by decide) (by decide) (by decide)
  exact ⟨h.1, h.2.1, (h.2.2.2.2.1 (by decide)).2 1 (by decide),
    h.2.2.2.2.2.2.2.2.2⟩

end SimPETS
